import Mathlib

/-!
Shallow embedding of `MetalFunctionWriter.cpp` (WGSL → Metal function
writer).  The C++ writer appends text to a shared `StringBuilder` while
walking the AST; here every emission function takes the current buffer
contents `sb : String` and the current indentation level `ind : Nat`
(the `Indentation<4>` member) and returns the new buffer contents, or an
error when the code reaches a fatal assertion
(`ASSERT` / `ASSERT_NOT_REACHED`).
-/

namespace WGSL

namespace Metal

/-- `AST::StageAttribute::Stage`. -/
inductive Stage : Type
  | vertex
  | fragment
  | compute
deriving DecidableEq, Repr

/-- `AST::ParameterizedType::Base`. -/
inductive PTBase : Type
  | vec2
  | vec3
  | vec4
  | mat2x2
  | mat2x3
  | mat2x4
  | mat3x2
  | mat3x3
  | mat3x4
  | mat4x2
  | mat4x3
  | mat4x4
deriving DecidableEq, Repr

/-- `AST::UnaryOperation`. -/
inductive UnaryOperation : Type
  | negate
deriving DecidableEq, Repr

/-- The attribute nodes: `AST::BuiltinAttribute` (a builtin name),
`AST::StageAttribute` (a pipeline stage), `AST::LocationAttribute`
(an integer location). -/
inductive Attribute : Type
  | builtinAttribute (name : String)
  | stageAttribute (stage : Stage)
  | locationAttribute (location : Nat)
deriving DecidableEq, Repr

mutual

/-- The type nodes: `AST::ArrayType` (optional element type, optional
element-count expression), `AST::NamedType` (a name),
`AST::ParameterizedType` (a base shape and an element type). -/
inductive TypeDecl : Type
  | arrayType (maybeElementType : Option TypeDecl)
      (maybeElementCount : Option Expression)
  | namedType (name : String)
  | parameterizedType (base : PTBase) (elementType : TypeDecl)

/-- The expression nodes of the writer.  Literal values are stored as the
numbers the C++ nodes carry; `callableExpression` stores its callee target
(a type node, per the AST) and its argument list. -/
inductive Expression : Type
  | abstractFloatLiteral (value : Float)
  | abstractIntLiteral (value : Int)
  | arrayAccess (base index : Expression)
  | callableExpression (target : TypeDecl) (arguments : List Expression)
  | float32Literal (value : Float)
  | identifierExpression (identifier : String)
  | int32Literal (value : Int)
  | structureAccess (base : Expression) (fieldName : String)
  | unaryExpression (operation : UnaryOperation) (expression : Expression)

end

/-- `call.target().kind() == AST::Node::Kind::ArrayType`. -/
def TypeDecl.isArrayKind : TypeDecl → Bool
  | .arrayType _ _ => true
  | _ => false

/-- The statement nodes: `AST::AssignmentStatement` (optional left-hand
side, right-hand side), `AST::CompoundStatement` (child statements),
`AST::ReturnStatement` (optional expression). -/
inductive Statement : Type
  | assignmentStatement (maybeLhs : Option Expression) (rhs : Expression)
  | compoundStatement (statements : List Statement)
  | returnStatement (maybeExpression : Option Expression)

/-- `statement.kind() == AST::Node::Kind::CompoundStatement`. -/
def Statement.isCompound : Statement → Bool
  | .compoundStatement _ => true
  | _ => false

/-- `AST::Parameter`: a type, a name, and attributes. -/
structure Parameter : Type where
  type : TypeDecl
  name : String
  attributes : List Attribute

/-- A member of `AST::StructDecl`: a type, a name, and attributes. -/
structure StructMember : Type where
  type : TypeDecl
  name : String
  attributes : List Attribute

/-- `AST::StructDecl`: a name and ordered members. -/
structure StructDecl : Type where
  name : String
  members : List StructMember

/-- `AST::FunctionDecl`: attributes, a name, parameters, an optional
return type, and a body (a compound statement). -/
structure FunctionDecl : Type where
  attributes : List Attribute
  name : String
  parameters : List Parameter
  maybeReturnType : Option TypeDecl
  body : Statement

/-- `AST::VariableDecl`: a name, an optional type, an optional
initializer. -/
structure VariableDecl : Type where
  name : String
  maybeTypeDecl : Option TypeDecl
  maybeInitializer : Option Expression

/-- `AST::ShaderModule`.  Modelled from the spec: the base visitor's
module traversal (`AST::Visitor::visit(ShaderModule&)`, defined in
`ASTVisitor.cpp`) is not among the shown sources; per the spec the root
entity is an ordered sequence of top-level declarations and the top-level
emitter walks them in document order, emitting one struct or function
definition per declaration.  Global variables play no part in the claims
and are omitted. -/
structure ShaderModule : Type where
  structs : List StructDecl
  functions : List FunctionDecl

/-- `RenderMetalFunctionEntryPoints`, the metadata record returned by
`emitMetalFunctions`: the vertex and fragment entry-point names. -/
structure RenderMetalFunctionEntryPoints : Type where
  vertexEntryPointName : String
  fragmentEntryPointName : String
deriving DecidableEq, Repr

/-- `Indentation<4>` rendered at level `n`: four spaces per level. -/
def indentString (n : Nat) : String :=
  String.join (List.replicate n "    ")

/-- `FunctionDefinitionWriter::visit(AST::BuiltinAttribute&)`,
`visit(AST::StageAttribute&)`, `visit(AST::LocationAttribute&)`:
the attribute translator.  An unrecognized builtin name reaches
`ASSERT_NOT_REACHED()`. -/
def emitAttribute (sb : String) : Attribute → Except Unit String
  | .builtinAttribute name =>
      if name == "vertex_index" then .ok (sb ++ "[[vertex_id]]")
      else if name == "position" then .ok (sb ++ "[[position]]")
      else .error ()
  | .stageAttribute stage =>
      match stage with
      | .vertex => .ok (sb ++ "[[vertex]]")
      | .fragment => .ok (sb ++ "[[fragment]]")
      | .compute => .ok (sb ++ "[[compute]]")
  | .locationAttribute location =>
      .ok (sb ++ "[[attribute(" ++ toString location ++ ")]]")

mutual

/-- `FunctionDefinitionWriter::visit(AST::ArrayType&)`,
`visit(AST::NamedType&)`, `visit(AST::ParameterizedType&)`: the type-name
translator.  `ASSERT(type.maybeElementType())` and
`ASSERT(type.maybeElementCount())` are the error branches of the array
case; the eight unimplemented matrix shapes reach `ASSERT_NOT_REACHED()`
while `Mat4x4` falls through its empty `case`. -/
def emitTypeDecl (ind : Nat) (sb : String) : TypeDecl → Except Unit String
  | .arrayType maybeElementType maybeElementCount =>
      match maybeElementType, maybeElementCount with
      | some elementType, some elementCount =>
          match emitTypeDecl ind (sb ++ "array<") elementType with
          | .error e => .error e
          | .ok sb =>
              match emitExpression ind (sb ++ ", ") elementCount with
              | .error e => .error e
              | .ok sb => .ok (sb ++ ">")
      | some _, none => .error ()
      | none, some _ => .error ()
      | none, none => .error ()
  | .namedType name =>
      if name == "i32" then .ok (sb ++ "int")
      else if name == "f32" then .ok (sb ++ "float")
      else if name == "u32" then .ok (sb ++ "unsigned")
      else .ok (sb ++ name)
  | .parameterizedType base elementType =>
      match base with
      | .vec2 =>
          match emitTypeDecl ind (sb ++ "vec<") elementType with
          | .error e => .error e
          | .ok sb => .ok (sb ++ ", 2>")
      | .vec3 =>
          match emitTypeDecl ind (sb ++ "vec<") elementType with
          | .error e => .error e
          | .ok sb => .ok (sb ++ ", 3>")
      | .vec4 =>
          match emitTypeDecl ind (sb ++ "vec<") elementType with
          | .error e => .error e
          | .ok sb => .ok (sb ++ ", 4>")
      | .mat2x2 => .error ()
      | .mat2x3 => .error ()
      | .mat2x4 => .error ()
      | .mat3x2 => .error ()
      | .mat3x3 => .error ()
      | .mat3x4 => .error ()
      | .mat4x2 => .error ()
      | .mat4x3 => .error ()
      | .mat4x4 => .ok sb

/-- `FunctionDefinitionWriter::visit(AST::CallableExpression&)` and the
other expression visits.  Literal values are appended via their decimal
rendering, mirroring `StringBuilder::append` on numbers (the C++ carries
a FIXME that this may not serialize all values correctly). -/
def emitExpression (ind : Nat) (sb : String) : Expression → Except Unit String
  | .abstractFloatLiteral value => .ok (sb ++ toString value)
  | .abstractIntLiteral value => .ok (sb ++ toString value)
  | .arrayAccess base index =>
      match emitExpression ind sb base with
      | .error e => .error e
      | .ok sb =>
          match emitExpression ind (sb ++ "[") index with
          | .error e => .error e
          | .ok sb => .ok (sb ++ "]")
  | .callableExpression target arguments =>
      if target.isArrayKind then
        match emitArrayCallArguments (ind + 1) (sb ++ "\x7b\n") arguments with
        | .error e => .error e
        | .ok sb => .ok (sb ++ indentString ind ++ "\x7d")
      else
        match emitTypeDecl ind sb target with
        | .error e => .error e
        | .ok sb =>
            match emitCallArguments ind (sb ++ "(") true arguments with
            | .error e => .error e
            | .ok sb => .ok (sb ++ ")")
  | .float32Literal value => .ok (sb ++ toString value)
  | .identifierExpression identifier => .ok (sb ++ identifier)
  | .int32Literal value => .ok (sb ++ toString value)
  | .structureAccess base fieldName =>
      match emitExpression ind sb base with
      | .error e => .error e
      | .ok sb => .ok (sb ++ "." ++ fieldName)
  | .unaryExpression operation expression =>
      match operation with
      | .negate => emitExpression ind (sb ++ "-") expression

/-- The argument loop of the array-type branch of
`visit(AST::CallableExpression&)`: each argument on its own line at the
scope's indentation, followed by a comma and a newline. -/
def emitArrayCallArguments (ind : Nat) (sb : String) :
    List Expression → Except Unit String
  | [] => .ok sb
  | argument :: rest =>
      match emitExpression ind (sb ++ indentString ind) argument with
      | .error e => .error e
      | .ok sb => emitArrayCallArguments ind (sb ++ ",\n") rest

/-- The argument loop of the ordinary-call branch of
`visit(AST::CallableExpression&)`: `", "` before every argument except
the first. -/
def emitCallArguments (ind : Nat) (sb : String) (first : Bool) :
    List Expression → Except Unit String
  | [] => .ok sb
  | argument :: rest =>
      match emitExpression ind (if first then sb else sb ++ ", ") argument with
      | .error e => .error e
      | .ok sb => emitCallArguments ind sb false rest

end

mutual

/-- `FunctionDefinitionWriter::visit(AST::Statement&)`: the generic
statement dispatch.  A statement whose kind is not `CompoundStatement`
gets the current indentation before it and `";\n"` after it; the
dispatch itself is `emitStatementDispatch`. -/
def emitStatement (ind : Nat) (sb : String) (s : Statement) :
    Except Unit String :=
  if s.isCompound then emitStatementDispatch ind sb s
  else
    match emitStatementDispatch ind (sb ++ indentString ind) s with
    | .error e => .error e
    | .ok sb => .ok (sb ++ ";\n")
termination_by (sizeOf s, 1)

/-- The per-kind statement visits reached from the generic dispatch:
`visit(AST::AssignmentStatement&)` and `visit(AST::ReturnStatement&)`
are in the shown source.  The compound branch is modelled from the spec:
the base visitor's `visit(CompoundStatement&)` (in `ASTVisitor.cpp`) is
not among the shown sources; per the spec a compound statement is
emitted by simply recursing into its child statements. -/
def emitStatementDispatch (ind : Nat) (sb : String) :
    Statement → Except Unit String
  | .assignmentStatement maybeLhs rhs =>
      match maybeLhs with
      | some lhs =>
          match emitExpression ind sb lhs with
          | .error e => .error e
          | .ok sb => emitExpression ind (sb ++ " = ") rhs
      | none => emitExpression ind sb rhs
  | .compoundStatement statements => emitStatementList ind sb statements
  | .returnStatement maybeExpression =>
      match maybeExpression with
      | some expression => emitExpression ind (sb ++ "return" ++ " ") expression
      | none => .ok (sb ++ "return")
termination_by s => (sizeOf s, 0)

/-- The child loop of a compound statement: each child through the
generic statement dispatch, in order. -/
def emitStatementList (ind : Nat) (sb : String) :
    List Statement → Except Unit String
  | [] => .ok sb
  | s :: rest =>
      match emitStatement ind sb s with
      | .error e => .error e
      | .ok sb => emitStatementList ind sb rest
termination_by l => (sizeOf l, 0)

end

/-- The attribute loop of `visit(AST::FunctionDecl&)`: each attribute
followed by a space. -/
def emitFunctionAttributes (sb : String) :
    List Attribute → Except Unit String
  | [] => .ok sb
  | attr :: rest =>
      match emitAttribute sb attr with
      | .error e => .error e
      | .ok sb => emitFunctionAttributes (sb ++ " ") rest

/-- The attribute loops of `visit(AST::Parameter&)` and of the member
loop in `visit(AST::StructDecl&)`: a space before each attribute. -/
def emitSpacedAttributes (sb : String) :
    List Attribute → Except Unit String
  | [] => .ok sb
  | attr :: rest =>
      match emitAttribute (sb ++ " ") attr with
      | .error e => .error e
      | .ok sb => emitSpacedAttributes sb rest

/-- `FunctionDefinitionWriter::visit(AST::Parameter&)`: type, space,
name, then a space before each attribute. -/
def emitParameter (ind : Nat) (sb : String) (p : Parameter) :
    Except Unit String :=
  match emitTypeDecl ind sb p.type with
  | .error e => .error e
  | .ok sb => emitSpacedAttributes (sb ++ " " ++ p.name) p.attributes

/-- The parameter loop of `visit(AST::FunctionDecl&)`: `", "` before
every parameter except the first. -/
def emitParameters (ind : Nat) (sb : String) (first : Bool) :
    List Parameter → Except Unit String
  | [] => .ok sb
  | p :: rest =>
      match emitParameter ind (if first then sb else sb ++ ", ") p with
      | .error e => .error e
      | .ok sb => emitParameters ind sb false rest

/-- `FunctionDefinitionWriter::visit(AST::FunctionDecl&)`:
`ASSERT(functionDefinition.maybeReturnType())`, then attributes, return
type, ` name(`, parameters, `)\n{\n`, the body inside an
`IndentationScope`, and `}\n\n`. -/
def emitFunctionDecl (ind : Nat) (sb : String) (f : FunctionDecl) :
    Except Unit String :=
  match f.maybeReturnType with
  | none => .error ()
  | some returnType =>
      match emitFunctionAttributes sb f.attributes with
      | .error e => .error e
      | .ok sb =>
          match emitTypeDecl ind sb returnType with
          | .error e => .error e
          | .ok sb =>
              match emitParameters ind (sb ++ " " ++ f.name ++ "(") true
                  f.parameters with
              | .error e => .error e
              | .ok sb =>
                  match emitStatement (ind + 1) (sb ++ ")\n" ++ "\x7b\n")
                      f.body with
                  | .error e => .error e
                  | .ok sb => .ok (sb ++ "\x7d\n\n")

/-- The member loop of `visit(AST::StructDecl&)`: indentation, member
type, space, member name, a space before each attribute, `";\n"`. -/
def emitStructMember (ind : Nat) (sb : String) (m : StructMember) :
    Except Unit String :=
  match emitTypeDecl ind (sb ++ indentString ind) m.type with
  | .error e => .error e
  | .ok sb =>
      match emitSpacedAttributes (sb ++ " " ++ m.name) m.attributes with
      | .error e => .error e
      | .ok sb => .ok (sb ++ ";\n")

/-- The members of a struct, in order. -/
def emitStructMembers (ind : Nat) (sb : String) :
    List StructMember → Except Unit String
  | [] => .ok sb
  | m :: rest =>
      match emitStructMember ind sb m with
      | .error e => .error e
      | .ok sb => emitStructMembers ind sb rest

/-- `FunctionDefinitionWriter::visit(AST::StructDecl&)`:
`struct Name {\n`, members inside an `IndentationScope`, `};\n\n`. -/
def emitStructDecl (ind : Nat) (sb : String) (s : StructDecl) :
    Except Unit String :=
  match emitStructMembers (ind + 1)
      (sb ++ indentString ind ++ "struct " ++ s.name ++ " \x7b\n") s.members with
  | .error e => .error e
  | .ok sb => .ok (sb ++ indentString ind ++ "\x7d;\n\n")

/-- `FunctionDefinitionWriter::visit(AST::VariableDecl&)`:
`ASSERT(variableDecl.maybeTypeDecl())`, then the type, a space, the
name, and ` = initializer` when an initializer is present. -/
def emitVariableDecl (ind : Nat) (sb : String) (v : VariableDecl) :
    Except Unit String :=
  match v.maybeTypeDecl with
  | none => .error ()
  | some typeDecl =>
      match emitTypeDecl ind sb typeDecl with
      | .error e => .error e
      | .ok sb =>
          match v.maybeInitializer with
          | some initializer => emitExpression ind (sb ++ " " ++ v.name ++ " = ") initializer
          | none => .ok (sb ++ " " ++ v.name)

/-- The struct declarations of a module, in order. -/
def emitStructDecls (ind : Nat) (sb : String) :
    List StructDecl → Except Unit String
  | [] => .ok sb
  | s :: rest =>
      match emitStructDecl ind sb s with
      | .error e => .error e
      | .ok sb => emitStructDecls ind sb rest

/-- The function declarations of a module, in order. -/
def emitFunctionDecls (ind : Nat) (sb : String) :
    List FunctionDecl → Except Unit String
  | [] => .ok sb
  | f :: rest =>
      match emitFunctionDecl ind sb f with
      | .error e => .error e
      | .ok sb => emitFunctionDecls ind sb rest

/-- `FunctionDefinitionWriter::visit(AST::ShaderModule&)`.  Modelled
from the spec: the base visitor's traversal is not among the shown
sources; per the spec the declarations are emitted in document order,
one struct or function definition per top-level declaration. -/
def emitShaderModule (ind : Nat) (sb : String) (m : ShaderModule) :
    Except Unit String :=
  match emitStructDecls ind sb m.structs with
  | .error e => .error e
  | .ok sb => emitFunctionDecls ind sb m.functions

/-- `emitMetalFunctions`: constructs a writer over the buffer with
indentation level 0, visits the module, and returns
`{ String(""_s), String(""_s) }` (the source carries
`FIXME: return the actual entry points`). -/
def emitMetalFunctions (sb : String) (m : ShaderModule) :
    Except Unit (String × RenderMetalFunctionEntryPoints) :=
  match emitShaderModule 0 sb m with
  | .error e => .error e
  | .ok sb => .ok (sb, ⟨"", ""⟩)

/-- The tail of a comma-separated list: `", "` before every entry. -/
def commaTail : List String → String
  | [] => ""
  | o :: rest => ", " ++ o ++ commaTail rest

/-- `o1, o2, ..., on`: commas only between entries, no trailing comma,
`""` for the empty list. -/
def commaSeparated : List String → String
  | [] => ""
  | o :: rest => o ++ commaTail rest

/-- The body of a brace-initializer list: each entry on its own line at
indentation level `ind`, followed by a comma and a newline. -/
def arrayEntryBlock (ind : Nat) : List String → String
  | [] => ""
  | o :: rest => indentString ind ++ o ++ ",\n" ++ arrayEntryBlock ind rest

/-- A module whose single function `main` carries the vertex stage
attribute: the input exhibiting the entry-point-name gap of
`emitMetalFunctions`. -/
def vertexOnlyModule : ShaderModule :=
  { structs := [],
    functions := [
      { attributes := [.stageAttribute .vertex],
        name := "main",
        parameters := [],
        maybeReturnType := some (.namedType "i32"),
        body := .compoundStatement [] }] }

/-! Localization lemmas: every emission function only appends to the
buffer, and the appended suffix does not depend on the buffer's prior
contents.  Each lemma says the run from buffer `sb` equals the run from
the empty buffer with `sb` prepended to the result. -/

theorem emitAttribute_localize (a : Attribute) (sb : String) :
    emitAttribute sb a = (emitAttribute "" a).map (sb ++ ·) := by
  cases a with
  | builtinAttribute name =>
      simp only [emitAttribute]
      by_cases h1 : name == "vertex_index"
      · simp [h1, Except.map, String.empty_append]
      · by_cases h2 : name == "position" <;>
          simp [h1, h2, Except.map, String.empty_append]
  | stageAttribute stage =>
      cases stage <;> simp [emitAttribute, Except.map, String.empty_append]
  | locationAttribute location =>
      simp [emitAttribute, Except.map, String.empty_append, String.append_assoc]

mutual

theorem emitTypeDecl_localize (t : TypeDecl) (ind : Nat) (sb : String) :
    emitTypeDecl ind sb t = (emitTypeDecl ind "" t).map (sb ++ ·) := by
  match t with
  | .arrayType none none => simp [emitTypeDecl, Except.map]
  | .arrayType none (some _) => simp [emitTypeDecl, Except.map]
  | .arrayType (some _) none => simp [emitTypeDecl, Except.map]
  | .arrayType (some et) (some ec) =>
      have ihT := emitTypeDecl_localize et ind
      have ihE := emitExpression_localize ec ind
      simp only [emitTypeDecl]
      rw [ihT (sb ++ "array<"), ihT ("" ++ "array<")]
      cases emitTypeDecl ind "" et with
      | error e => simp [Except.map]
      | ok o1 =>
          simp only [Except.map]
          rw [ihE (sb ++ "array<" ++ o1 ++ ", "),
            ihE ("" ++ "array<" ++ o1 ++ ", ")]
          cases emitExpression ind "" ec with
          | error e => simp [Except.map]
          | ok o2 => simp [Except.map, String.empty_append, String.append_assoc]
  | .namedType name =>
      simp only [emitTypeDecl]
      by_cases h1 : name == "i32"
      · simp [h1, Except.map, String.empty_append]
      · by_cases h2 : name == "f32"
        · simp [h1, h2, Except.map, String.empty_append]
        · by_cases h3 : name == "u32" <;>
            simp [h1, h2, h3, Except.map, String.empty_append]
  | .parameterizedType base et =>
      have ihT := emitTypeDecl_localize et ind
      cases base with
      | vec2 =>
          simp only [emitTypeDecl]
          rw [ihT (sb ++ "vec<"), ihT ("" ++ "vec<")]
          cases emitTypeDecl ind "" et with
          | error e => simp [Except.map]
          | ok o => simp [Except.map, String.empty_append, String.append_assoc]
      | vec3 =>
          simp only [emitTypeDecl]
          rw [ihT (sb ++ "vec<"), ihT ("" ++ "vec<")]
          cases emitTypeDecl ind "" et with
          | error e => simp [Except.map]
          | ok o => simp [Except.map, String.empty_append, String.append_assoc]
      | vec4 =>
          simp only [emitTypeDecl]
          rw [ihT (sb ++ "vec<"), ihT ("" ++ "vec<")]
          cases emitTypeDecl ind "" et with
          | error e => simp [Except.map]
          | ok o => simp [Except.map, String.empty_append, String.append_assoc]
      | mat2x2 => simp [emitTypeDecl, Except.map]
      | mat2x3 => simp [emitTypeDecl, Except.map]
      | mat2x4 => simp [emitTypeDecl, Except.map]
      | mat3x2 => simp [emitTypeDecl, Except.map]
      | mat3x3 => simp [emitTypeDecl, Except.map]
      | mat3x4 => simp [emitTypeDecl, Except.map]
      | mat4x2 => simp [emitTypeDecl, Except.map]
      | mat4x3 => simp [emitTypeDecl, Except.map]
      | mat4x4 => simp [emitTypeDecl, Except.map, String.append_empty]
termination_by sizeOf t

theorem emitExpression_localize (e : Expression) (ind : Nat) (sb : String) :
    emitExpression ind sb e = (emitExpression ind "" e).map (sb ++ ·) := by
  match e with
  | .abstractFloatLiteral v =>
      simp [emitExpression, Except.map, String.empty_append]
  | .abstractIntLiteral v =>
      simp [emitExpression, Except.map, String.empty_append]
  | .arrayAccess base index =>
      have ihB := emitExpression_localize base ind
      have ihI := emitExpression_localize index ind
      simp only [emitExpression]
      rw [ihB sb]
      cases emitExpression ind "" base with
      | error e => simp [Except.map]
      | ok o1 =>
          simp only [Except.map]
          rw [ihI (sb ++ o1 ++ "["), ihI (o1 ++ "[")]
          cases emitExpression ind "" index with
          | error e => simp [Except.map]
          | ok o2 => simp [Except.map, String.append_assoc]
  | .callableExpression target arguments =>
      have ihA := emitArrayCallArguments_localize arguments (ind + 1)
      have ihT := emitTypeDecl_localize target ind
      have ihC := emitCallArguments_localize arguments ind true
      simp only [emitExpression]
      cases hk : target.isArrayKind with
      | true =>
          simp only [reduceIte]
          rw [ihA (sb ++ "\x7b\n"), ihA ("" ++ "\x7b\n")]
          cases emitArrayCallArguments (ind + 1) "" arguments with
          | error e => simp [Except.map]
          | ok o => simp [Except.map, String.empty_append, String.append_assoc]
      | false =>
          simp only [Bool.false_eq_true, reduceIte]
          rw [ihT sb]
          cases emitTypeDecl ind "" target with
          | error e => simp [Except.map]
          | ok o1 =>
              simp only [Except.map]
              rw [ihC (sb ++ o1 ++ "("), ihC (o1 ++ "(")]
              cases emitCallArguments ind "" true arguments with
              | error e => simp [Except.map]
              | ok o2 => simp [Except.map, String.append_assoc]
  | .float32Literal v =>
      simp [emitExpression, Except.map, String.empty_append]
  | .identifierExpression id =>
      simp [emitExpression, Except.map, String.empty_append]
  | .int32Literal v =>
      simp [emitExpression, Except.map, String.empty_append]
  | .structureAccess base fieldName =>
      have ihB := emitExpression_localize base ind
      simp only [emitExpression]
      rw [ihB sb]
      cases emitExpression ind "" base with
      | error e => simp [Except.map]
      | ok o => simp [Except.map, String.append_assoc]
  | .unaryExpression op expr =>
      have ihE := emitExpression_localize expr ind
      cases op with
      | negate =>
          simp only [emitExpression]
          rw [ihE (sb ++ "-"), ihE ("" ++ "-")]
          cases emitExpression ind "" expr with
          | error e => simp [Except.map]
          | ok o => simp [Except.map, String.empty_append, String.append_assoc]
termination_by sizeOf e

theorem emitArrayCallArguments_localize (l : List Expression) (ind : Nat)
    (sb : String) :
    emitArrayCallArguments ind sb l =
      (emitArrayCallArguments ind "" l).map (sb ++ ·) := by
  match l with
  | [] => simp [emitArrayCallArguments, Except.map, String.append_empty]
  | a :: rest =>
      have ihA := emitExpression_localize a ind
      have ihR := emitArrayCallArguments_localize rest ind
      simp only [emitArrayCallArguments]
      rw [ihA (sb ++ indentString ind), ihA ("" ++ indentString ind)]
      cases emitExpression ind "" a with
      | error e => simp [Except.map]
      | ok o =>
          simp only [Except.map]
          rw [ihR (sb ++ indentString ind ++ o ++ ",\n"),
            ihR ("" ++ indentString ind ++ o ++ ",\n")]
          cases emitArrayCallArguments ind "" rest with
          | error e => simp [Except.map]
          | ok o2 => simp [Except.map, String.empty_append, String.append_assoc]
termination_by sizeOf l

theorem emitCallArguments_localize (l : List Expression) (ind : Nat)
    (first : Bool) (sb : String) :
    emitCallArguments ind sb first l =
      (emitCallArguments ind "" first l).map (sb ++ ·) := by
  match l with
  | [] => simp [emitCallArguments, Except.map, String.append_empty]
  | a :: rest =>
      have ihA := emitExpression_localize a ind
      have ihR := emitCallArguments_localize rest ind false
      simp only [emitCallArguments]
      cases first with
      | true =>
          simp only [reduceIte]
          rw [ihA sb]
          cases emitExpression ind "" a with
          | error e => simp [Except.map]
          | ok o =>
              simp only [Except.map]
              rw [ihR (sb ++ o), ihR o]
              cases emitCallArguments ind "" false rest with
              | error e => simp [Except.map]
              | ok o2 => simp [Except.map, String.append_assoc]
      | false =>
          simp only [Bool.false_eq_true, reduceIte]
          rw [ihA (sb ++ ", "), ihA ("" ++ ", ")]
          cases emitExpression ind "" a with
          | error e => simp [Except.map]
          | ok o =>
              simp only [Except.map]
              rw [ihR (sb ++ ", " ++ o), ihR ("" ++ ", " ++ o)]
              cases emitCallArguments ind "" false rest with
              | error e => simp [Except.map]
              | ok o2 =>
                  simp [Except.map, String.empty_append, String.append_assoc]
termination_by sizeOf l

end

mutual

theorem emitStatement_localize (s : Statement) (ind : Nat) (sb : String) :
    emitStatement ind sb s = (emitStatement ind "" s).map (sb ++ ·) := by
  have ihD := emitStatementDispatch_localize s ind
  simp only [emitStatement]
  cases hk : s.isCompound with
  | true => simp only [reduceIte]; exact ihD sb
  | false =>
      simp only [Bool.false_eq_true, reduceIte]
      rw [ihD (sb ++ indentString ind), ihD ("" ++ indentString ind)]
      cases emitStatementDispatch ind "" s with
      | error e => simp [Except.map]
      | ok o => simp [Except.map, String.empty_append, String.append_assoc]
termination_by (sizeOf s, 1)

theorem emitStatementDispatch_localize (s : Statement) (ind : Nat)
    (sb : String) :
    emitStatementDispatch ind sb s =
      (emitStatementDispatch ind "" s).map (sb ++ ·) := by
  match s with
  | .assignmentStatement none rhs =>
      simp only [emitStatementDispatch]
      exact emitExpression_localize rhs ind sb
  | .assignmentStatement (some lhs) rhs =>
      have ihL := emitExpression_localize lhs ind
      have ihR := emitExpression_localize rhs ind
      simp only [emitStatementDispatch]
      rw [ihL sb]
      cases emitExpression ind "" lhs with
      | error e => simp [Except.map]
      | ok o1 =>
          simp only [Except.map]
          rw [ihR (sb ++ o1 ++ " = "), ihR (o1 ++ " = ")]
          cases emitExpression ind "" rhs with
          | error e => simp [Except.map]
          | ok o2 => simp [Except.map, String.append_assoc]
  | .compoundStatement statements =>
      simp only [emitStatementDispatch]
      exact emitStatementList_localize statements ind sb
  | .returnStatement none =>
      simp [emitStatementDispatch, Except.map, String.empty_append]
  | .returnStatement (some ex) =>
      have ihE := emitExpression_localize ex ind
      simp only [emitStatementDispatch]
      rw [ihE (sb ++ "return" ++ " "), ihE ("" ++ "return" ++ " ")]
      cases emitExpression ind "" ex with
      | error e => simp [Except.map]
      | ok o => simp [Except.map, String.empty_append, String.append_assoc]
termination_by (sizeOf s, 0)

theorem emitStatementList_localize (l : List Statement) (ind : Nat)
    (sb : String) :
    emitStatementList ind sb l =
      (emitStatementList ind "" l).map (sb ++ ·) := by
  match l with
  | [] => simp [emitStatementList, Except.map, String.append_empty]
  | s :: rest =>
      have ihS := emitStatement_localize s ind
      have ihR := emitStatementList_localize rest ind
      simp only [emitStatementList]
      rw [ihS sb]
      cases emitStatement ind "" s with
      | error e => simp [Except.map]
      | ok o =>
          simp only [Except.map]
          rw [ihR (sb ++ o), ihR o]
          cases emitStatementList ind "" rest with
          | error e => simp [Except.map]
          | ok o2 => simp [Except.map, String.append_assoc]
termination_by (sizeOf l, 0)

end

theorem emitFunctionAttributes_localize (l : List Attribute) (sb : String) :
    emitFunctionAttributes sb l =
      (emitFunctionAttributes "" l).map (sb ++ ·) := by
  induction l generalizing sb with
  | nil => simp [emitFunctionAttributes, Except.map, String.append_empty]
  | cons attr rest ih =>
      simp only [emitFunctionAttributes]
      rw [emitAttribute_localize attr sb]
      cases emitAttribute "" attr with
      | error e => simp [Except.map]
      | ok o =>
          simp only [Except.map]
          rw [ih (sb ++ o ++ " "), ih (o ++ " ")]
          cases emitFunctionAttributes "" rest with
          | error e => simp [Except.map]
          | ok o2 => simp [Except.map, String.append_assoc]

theorem emitSpacedAttributes_localize (l : List Attribute) (sb : String) :
    emitSpacedAttributes sb l =
      (emitSpacedAttributes "" l).map (sb ++ ·) := by
  induction l generalizing sb with
  | nil => simp [emitSpacedAttributes, Except.map, String.append_empty]
  | cons attr rest ih =>
      simp only [emitSpacedAttributes]
      rw [emitAttribute_localize attr (sb ++ " "),
        emitAttribute_localize attr ("" ++ " ")]
      cases emitAttribute "" attr with
      | error e => simp [Except.map]
      | ok o =>
          simp only [Except.map]
          rw [ih (sb ++ " " ++ o), ih ("" ++ " " ++ o)]
          cases emitSpacedAttributes "" rest with
          | error e => simp [Except.map]
          | ok o2 => simp [Except.map, String.empty_append, String.append_assoc]

theorem emitParameter_localize (p : Parameter) (ind : Nat) (sb : String) :
    emitParameter ind sb p = (emitParameter ind "" p).map (sb ++ ·) := by
  simp only [emitParameter]
  rw [emitTypeDecl_localize p.type ind sb]
  cases emitTypeDecl ind "" p.type with
  | error e => simp [Except.map]
  | ok o =>
      simp only [Except.map]
      rw [emitSpacedAttributes_localize p.attributes (sb ++ o ++ " " ++ p.name),
        emitSpacedAttributes_localize p.attributes (o ++ " " ++ p.name)]
      cases emitSpacedAttributes "" p.attributes with
      | error e => simp [Except.map]
      | ok o2 => simp [Except.map, String.append_assoc]

theorem emitParameters_localize (l : List Parameter) (ind : Nat)
    (first : Bool) (sb : String) :
    emitParameters ind sb first l =
      (emitParameters ind "" first l).map (sb ++ ·) := by
  induction l generalizing sb first with
  | nil => simp [emitParameters, Except.map, String.append_empty]
  | cons p rest ih =>
      simp only [emitParameters]
      cases first with
      | true =>
          simp only [reduceIte]
          rw [emitParameter_localize p ind sb]
          cases emitParameter ind "" p with
          | error e => simp [Except.map]
          | ok o =>
              simp only [Except.map]
              rw [ih false (sb ++ o), ih false o]
              cases emitParameters ind "" false rest with
              | error e => simp [Except.map]
              | ok o2 => simp [Except.map, String.append_assoc]
      | false =>
          simp only [Bool.false_eq_true, reduceIte]
          rw [emitParameter_localize p ind (sb ++ ", "),
            emitParameter_localize p ind ("" ++ ", ")]
          cases emitParameter ind "" p with
          | error e => simp [Except.map]
          | ok o =>
              simp only [Except.map]
              rw [ih false (sb ++ ", " ++ o), ih false ("" ++ ", " ++ o)]
              cases emitParameters ind "" false rest with
              | error e => simp [Except.map]
              | ok o2 =>
                  simp [Except.map, String.empty_append, String.append_assoc]

theorem emitFunctionDecl_localize (f : FunctionDecl) (ind : Nat)
    (sb : String) :
    emitFunctionDecl ind sb f = (emitFunctionDecl ind "" f).map (sb ++ ·) := by
  simp only [emitFunctionDecl]
  cases f.maybeReturnType with
  | none => simp [Except.map]
  | some returnType =>
      rw [emitFunctionAttributes_localize f.attributes sb]
      cases emitFunctionAttributes "" f.attributes with
      | error e => simp [Except.map]
      | ok o1 =>
          simp only [Except.map]
          rw [emitTypeDecl_localize returnType ind (sb ++ o1),
            emitTypeDecl_localize returnType ind o1]
          cases emitTypeDecl ind "" returnType with
          | error e => simp [Except.map]
          | ok o2 =>
              simp only [Except.map]
              rw [emitParameters_localize f.parameters ind true
                  (sb ++ o1 ++ o2 ++ " " ++ f.name ++ "("),
                emitParameters_localize f.parameters ind true
                  (o1 ++ o2 ++ " " ++ f.name ++ "(")]
              cases emitParameters ind "" true f.parameters with
              | error e => simp [Except.map]
              | ok o3 =>
                  simp only [Except.map]
                  rw [emitStatement_localize f.body (ind + 1)
                      (sb ++ o1 ++ o2 ++ " " ++ f.name ++ "(" ++ o3 ++
                        ")\n" ++ "\x7b\n"),
                    emitStatement_localize f.body (ind + 1)
                      (o1 ++ o2 ++ " " ++ f.name ++ "(" ++ o3 ++
                        ")\n" ++ "\x7b\n")]
                  cases emitStatement (ind + 1) "" f.body with
                  | error e => simp [Except.map]
                  | ok o4 => simp [Except.map, String.append_assoc]

theorem emitStructMember_localize (m : StructMember) (ind : Nat)
    (sb : String) :
    emitStructMember ind sb m = (emitStructMember ind "" m).map (sb ++ ·) := by
  simp only [emitStructMember]
  rw [emitTypeDecl_localize m.type ind (sb ++ indentString ind),
    emitTypeDecl_localize m.type ind ("" ++ indentString ind)]
  cases emitTypeDecl ind "" m.type with
  | error e => simp [Except.map]
  | ok o =>
      simp only [Except.map]
      rw [emitSpacedAttributes_localize m.attributes
          (sb ++ indentString ind ++ o ++ " " ++ m.name),
        emitSpacedAttributes_localize m.attributes
          ("" ++ indentString ind ++ o ++ " " ++ m.name)]
      cases emitSpacedAttributes "" m.attributes with
      | error e => simp [Except.map]
      | ok o2 => simp [Except.map, String.empty_append, String.append_assoc]

theorem emitStructMembers_localize (l : List StructMember) (ind : Nat)
    (sb : String) :
    emitStructMembers ind sb l =
      (emitStructMembers ind "" l).map (sb ++ ·) := by
  induction l generalizing sb with
  | nil => simp [emitStructMembers, Except.map, String.append_empty]
  | cons m rest ih =>
      simp only [emitStructMembers]
      rw [emitStructMember_localize m ind sb]
      cases emitStructMember ind "" m with
      | error e => simp [Except.map]
      | ok o =>
          simp only [Except.map]
          rw [ih (sb ++ o), ih o]
          cases emitStructMembers ind "" rest with
          | error e => simp [Except.map]
          | ok o2 => simp [Except.map, String.append_assoc]

theorem emitStructDecl_localize (s : StructDecl) (ind : Nat) (sb : String) :
    emitStructDecl ind sb s = (emitStructDecl ind "" s).map (sb ++ ·) := by
  simp only [emitStructDecl]
  rw [emitStructMembers_localize s.members (ind + 1)
      (sb ++ indentString ind ++ "struct " ++ s.name ++ " \x7b\n"),
    emitStructMembers_localize s.members (ind + 1)
      ("" ++ indentString ind ++ "struct " ++ s.name ++ " \x7b\n")]
  cases emitStructMembers (ind + 1) "" s.members with
  | error e => simp [Except.map]
  | ok o => simp [Except.map, String.empty_append, String.append_assoc]

theorem emitVariableDecl_localize (v : VariableDecl) (ind : Nat)
    (sb : String) :
    emitVariableDecl ind sb v = (emitVariableDecl ind "" v).map (sb ++ ·) := by
  simp only [emitVariableDecl]
  cases v.maybeTypeDecl with
  | none => simp [Except.map]
  | some typeDecl =>
      dsimp only
      rw [emitTypeDecl_localize typeDecl ind sb]
      cases emitTypeDecl ind "" typeDecl with
      | error e => simp [Except.map]
      | ok o =>
          simp only [Except.map]
          cases v.maybeInitializer with
          | none => simp [Except.map, String.append_assoc]
          | some initializer =>
              dsimp only
              rw [emitExpression_localize initializer ind
                  (sb ++ o ++ " " ++ v.name ++ " = "),
                emitExpression_localize initializer ind
                  (o ++ " " ++ v.name ++ " = ")]
              cases emitExpression ind "" initializer with
              | error e => simp [Except.map]
              | ok o2 => simp [Except.map, String.append_assoc]

theorem emitStructDecls_localize (l : List StructDecl) (ind : Nat)
    (sb : String) :
    emitStructDecls ind sb l = (emitStructDecls ind "" l).map (sb ++ ·) := by
  induction l generalizing sb with
  | nil => simp [emitStructDecls, Except.map, String.append_empty]
  | cons s rest ih =>
      simp only [emitStructDecls]
      rw [emitStructDecl_localize s ind sb]
      cases emitStructDecl ind "" s with
      | error e => simp [Except.map]
      | ok o =>
          simp only [Except.map]
          rw [ih (sb ++ o), ih o]
          cases emitStructDecls ind "" rest with
          | error e => simp [Except.map]
          | ok o2 => simp [Except.map, String.append_assoc]

theorem emitFunctionDecls_localize (l : List FunctionDecl) (ind : Nat)
    (sb : String) :
    emitFunctionDecls ind sb l =
      (emitFunctionDecls ind "" l).map (sb ++ ·) := by
  induction l generalizing sb with
  | nil => simp [emitFunctionDecls, Except.map, String.append_empty]
  | cons f rest ih =>
      simp only [emitFunctionDecls]
      rw [emitFunctionDecl_localize f ind sb]
      cases emitFunctionDecl ind "" f with
      | error e => simp [Except.map]
      | ok o =>
          simp only [Except.map]
          rw [ih (sb ++ o), ih o]
          cases emitFunctionDecls ind "" rest with
          | error e => simp [Except.map]
          | ok o2 => simp [Except.map, String.append_assoc]

theorem emitShaderModule_localize (m : ShaderModule) (ind : Nat)
    (sb : String) :
    emitShaderModule ind sb m = (emitShaderModule ind "" m).map (sb ++ ·) := by
  simp only [emitShaderModule]
  rw [emitStructDecls_localize m.structs ind sb]
  cases emitStructDecls ind "" m.structs with
  | error e => simp [Except.map]
  | ok o =>
      simp only [Except.map]
      rw [emitFunctionDecls_localize m.functions ind (sb ++ o),
        emitFunctionDecls_localize m.functions ind o]
      cases emitFunctionDecls ind "" m.functions with
      | error e => simp [Except.map]
      | ok o2 => simp [Except.map, String.append_assoc]

theorem emitMetalFunctions_localize (m : ShaderModule) (sb : String) :
    emitMetalFunctions sb m =
      (emitMetalFunctions "" m).map (fun p => (sb ++ p.1, p.2)) := by
  simp only [emitMetalFunctions]
  rw [emitShaderModule_localize m 0 sb]
  cases emitShaderModule 0 "" m with
  | error e => simp [Except.map]
  | ok o => simp [Except.map]

/-- Left cancellation for string concatenation. -/
theorem append_left_cancel_str (a : String) {b c : String}
    (h : a ++ b = a ++ c) : b = c := by
  have h2 : a.data ++ b.data = a.data ++ c.data := by
    simpa [String.data_append] using congrArg String.data h
  exact String.ext (List.append_cancel_left h2)

/-- An `ArrayType` with both components present takes the success path:
the output is exactly `array<`, the element type's emission, `, `, the
count's emission, `>`. -/
theorem emitArrayType_ok (ind : Nat) (sb : String) (t : TypeDecl)
    (c : Expression) (tOut cOut : String)
    (ht : emitTypeDecl ind "" t = .ok tOut)
    (hc : emitExpression ind "" c = .ok cOut) :
    emitTypeDecl ind sb (.arrayType (some t) (some c)) =
      .ok (sb ++ "array<" ++ tOut ++ ", " ++ cOut ++ ">") := by
  simp only [emitTypeDecl]
  rw [emitTypeDecl_localize t ind (sb ++ "array<"), ht]
  simp only [Except.map]
  rw [emitExpression_localize c ind (sb ++ "array<" ++ tOut ++ ", "), hc]
  simp [Except.map, String.append_assoc]

/-- The brace-initializer argument loop, given the emission of each
argument from the empty buffer. -/
theorem emitArrayCallArguments_ok {ind : Nat} {args : List Expression}
    {outs : List String}
    (h : List.Forall₂ (fun a o => emitExpression ind "" a = .ok o) args outs) :
    ∀ sb, emitArrayCallArguments ind sb args =
      .ok (sb ++ arrayEntryBlock ind outs) := by
  induction h with
  | nil =>
      intro sb
      simp [emitArrayCallArguments, arrayEntryBlock, String.append_empty]
  | @cons a o args' outs' ha hrest ih =>
      intro sb
      simp only [emitArrayCallArguments]
      rw [emitExpression_localize a ind (sb ++ indentString ind), ha]
      simp only [Except.map]
      rw [ih (sb ++ indentString ind ++ o ++ ",\n")]
      simp [arrayEntryBlock, String.append_assoc]

/-- The ordinary-call argument loop after the first argument: `", "`
before every entry. -/
theorem emitCallArguments_false_ok {ind : Nat} {args : List Expression}
    {outs : List String}
    (h : List.Forall₂ (fun a o => emitExpression ind "" a = .ok o) args outs) :
    ∀ sb, emitCallArguments ind sb false args = .ok (sb ++ commaTail outs) := by
  induction h with
  | nil => intro sb; simp [emitCallArguments, commaTail, String.append_empty]
  | @cons a o args' outs' ha hrest ih =>
      intro sb
      simp only [emitCallArguments, Bool.false_eq_true, reduceIte]
      rw [emitExpression_localize a ind (sb ++ ", "), ha]
      simp only [Except.map]
      rw [ih (sb ++ ", " ++ o)]
      simp [commaTail, String.append_assoc]

/-- The ordinary-call argument loop from its start: commas only between
entries. -/
theorem emitCallArguments_true_ok {ind : Nat} {args : List Expression}
    {outs : List String}
    (h : List.Forall₂ (fun a o => emitExpression ind "" a = .ok o) args outs) :
    ∀ sb, emitCallArguments ind sb true args =
      .ok (sb ++ commaSeparated outs) := by
  cases h with
  | nil => intro sb; simp [emitCallArguments, commaSeparated, String.append_empty]
  | @cons a o args' outs' ha hrest =>
      intro sb
      simp only [emitCallArguments, reduceIte]
      rw [emitExpression_localize a ind sb, ha]
      simp only [Except.map]
      rw [emitCallArguments_false_ok hrest (sb ++ o)]
      simp [commaSeparated, String.append_assoc]

/-- C1: `emitMetalFunctions` is claimed to return the names of the
functions carrying the vertex and fragment stage attributes, each empty
only when no such function exists.  On a module whose single function
`main` carries the vertex stage attribute, the code nevertheless returns
an empty vertex entry-point name (the source carries
`FIXME: return the actual entry points`). -/
theorem emitMetalFunctions_entry_point_gap :
    (∃ f ∈ vertexOnlyModule.functions,
      Attribute.stageAttribute Stage.vertex ∈ f.attributes ∧
        f.name = "main") ∧
    emitMetalFunctions "" vertexOnlyModule =
      .ok ("[[vertex]] int main()\n\x7b\n\x7d\n\n",
        { vertexEntryPointName := "", fragmentEntryPointName := "" }) := by
  constructor
  · refine ⟨_, List.mem_cons_self _ _, ?_, rfl⟩
    simp [vertexOnlyModule]
  · simp [vertexOnlyModule, emitMetalFunctions, emitShaderModule,
      emitStructDecls, emitFunctionDecls, emitFunctionDecl,
      emitFunctionAttributes, emitAttribute, emitTypeDecl, emitParameters,
      emitStatement, emitStatementDispatch, emitStatementList,
      Statement.isCompound, indentString]

/-- C2: the type-name translator is fatal on the eight matrix shapes
other than 4x4, and is a silent no-op on the 4x4 shape: it appends
nothing to the buffer and does not fail. -/
theorem parameterizedType_matrix_behaviour (ind : Nat) (sb : String)
    (et : TypeDecl) :
    emitTypeDecl ind sb (.parameterizedType .mat2x2 et) = .error () ∧
    emitTypeDecl ind sb (.parameterizedType .mat2x3 et) = .error () ∧
    emitTypeDecl ind sb (.parameterizedType .mat2x4 et) = .error () ∧
    emitTypeDecl ind sb (.parameterizedType .mat3x2 et) = .error () ∧
    emitTypeDecl ind sb (.parameterizedType .mat3x3 et) = .error () ∧
    emitTypeDecl ind sb (.parameterizedType .mat3x4 et) = .error () ∧
    emitTypeDecl ind sb (.parameterizedType .mat4x2 et) = .error () ∧
    emitTypeDecl ind sb (.parameterizedType .mat4x3 et) = .error () ∧
    emitTypeDecl ind sb (.parameterizedType .mat4x4 et) = .ok sb := by
  refine ⟨?_, ?_, ?_, ?_, ?_, ?_, ?_, ?_, ?_⟩ <;> simp [emitTypeDecl]

/-- C3: a `CallableExpression` whose callee is an array type renders as
a brace-delimited list with one entry per argument, in order, each on
its own line one indentation level deeper than the opening brace, the
closing brace back at the original indentation; any other callee
renders as `callee(arg1, arg2, ..., argn)` with commas only between
arguments and `callee()` for zero arguments. -/
theorem callableExpression_rendering (ind : Nat) (sb : String)
    (target : TypeDecl) (args : List Expression) (outs : List String)
    (tOut : String) :
    (target.isArrayKind = true →
      List.Forall₂ (fun a o => emitExpression (ind + 1) "" a = .ok o)
        args outs →
      emitExpression ind sb (.callableExpression target args) =
        .ok (sb ++ "\x7b\n" ++ arrayEntryBlock (ind + 1) outs ++
          indentString ind ++ "\x7d")) ∧
    (target.isArrayKind = false →
      emitTypeDecl ind "" target = .ok tOut →
      List.Forall₂ (fun a o => emitExpression ind "" a = .ok o) args outs →
      emitExpression ind sb (.callableExpression target args) =
        .ok (sb ++ tOut ++ "(" ++ commaSeparated outs ++ ")")) := by
  constructor
  · intro hk hf
    simp only [emitExpression, hk, reduceIte]
    rw [emitArrayCallArguments_ok hf (sb ++ "\x7b\n")]
  · intro hk ht hf
    simp only [emitExpression, hk, Bool.false_eq_true, reduceIte]
    rw [emitTypeDecl_localize target ind sb, ht]
    simp only [Except.map]
    rw [emitCallArguments_true_ok hf (sb ++ tOut ++ "(")]

/-- Witness for C3 at concrete inputs: an array-typed callee with two
arguments renders as a brace initializer; a named callee with the same
arguments renders as an ordinary call. -/
theorem callableExpression_rendering_witness :
    emitExpression 0 ""
        (.callableExpression
          (.arrayType (some (.namedType "i32")) (some (.int32Literal 1)))
          [.identifierExpression "a", .identifierExpression "b"]) =
      .ok ("" ++ "\x7b\n" ++ arrayEntryBlock 1 ["a", "b"] ++
        indentString 0 ++ "\x7d") ∧
    emitExpression 0 ""
        (.callableExpression (.namedType "foo")
          [.identifierExpression "a", .identifierExpression "b"]) =
      .ok ("" ++ "foo" ++ "(" ++ commaSeparated ["a", "b"] ++ ")") := by
  constructor
  · exact (callableExpression_rendering 0 ""
        (.arrayType (some (.namedType "i32")) (some (.int32Literal 1)))
        [.identifierExpression "a", .identifierExpression "b"]
        ["a", "b"] "").1 rfl
      (.cons (by simp [emitExpression, String.empty_append])
        (.cons (by simp [emitExpression, String.empty_append]) .nil))
  · exact (callableExpression_rendering 0 "" (.namedType "foo")
        [.identifierExpression "a", .identifierExpression "b"]
        ["a", "b"] "foo").2 rfl
      (by simp [emitTypeDecl, String.empty_append])
      (.cons (by simp [emitExpression, String.empty_append])
        (.cons (by simp [emitExpression, String.empty_append]) .nil))

/-- C4: the generic statement dispatch puts the current indentation
before, and `";\n"` after, every statement that is not a compound
statement; a compound statement is emitted by recursing into its child
statements with no indentation or terminator of its own. -/
theorem statement_dispatch_shape (ind : Nat) (sb : String) :
    (∀ s : Statement, s.isCompound = false →
      emitStatement ind sb s =
        (emitStatementDispatch ind (sb ++ indentString ind) s).map
          (· ++ ";\n")) ∧
    (∀ statements : List Statement,
      emitStatement ind sb (.compoundStatement statements) =
        emitStatementList ind sb statements) := by
  constructor
  · intro s hs
    simp only [emitStatement, hs, Bool.false_eq_true, reduceIte]
    cases emitStatementDispatch ind (sb ++ indentString ind) s with
    | error e => simp [Except.map]
    | ok o => simp [Except.map]
  · intro statements
    simp [emitStatement, emitStatementDispatch, Statement.isCompound]

/-- Witness for C4 at a concrete input: a return statement is wrapped in
the indentation and the terminator. -/
theorem statement_dispatch_shape_witness :
    emitStatement 0 "" (.returnStatement none) =
      (emitStatementDispatch 0 ("" ++ indentString 0)
        (.returnStatement none)).map (· ++ ";\n") :=
  (statement_dispatch_shape 0 "").1 (.returnStatement none) rfl

/-- C5: `NamedType` translation maps `"i32"` to `"int"`, `"f32"` to
`"float"`, `"u32"` to `"unsigned"`, and any other name to itself. -/
theorem namedType_translation (ind : Nat) (sb : String) (name : String) :
    emitTypeDecl ind sb (.namedType "i32") = .ok (sb ++ "int") ∧
    emitTypeDecl ind sb (.namedType "f32") = .ok (sb ++ "float") ∧
    emitTypeDecl ind sb (.namedType "u32") = .ok (sb ++ "unsigned") ∧
    (name ≠ "i32" → name ≠ "f32" → name ≠ "u32" →
      emitTypeDecl ind sb (.namedType name) = .ok (sb ++ name)) := by
  refine ⟨by simp [emitTypeDecl], by simp [emitTypeDecl],
    by simp [emitTypeDecl], ?_⟩
  intro h1 h2 h3
  simp [emitTypeDecl, h1, h2, h3]

/-- Witness for C5 at a concrete input: an unrecognized name passes
through verbatim. -/
theorem namedType_translation_witness :
    emitTypeDecl 0 "" (.namedType "MyStruct") = .ok ("" ++ "MyStruct") :=
  (namedType_translation 0 "" "MyStruct").2.2.2 (by decide) (by decide)
    (by decide)

/-- C6: an `ArrayType` with both components present emits exactly
`array<`, the element type's translation, `, `, the count's emission,
`>`. -/
theorem arrayType_exact_concatenation (ind : Nat) (sb : String)
    (t : TypeDecl) (c : Expression) (tOut cOut : String)
    (ht : emitTypeDecl ind "" t = .ok tOut)
    (hc : emitExpression ind "" c = .ok cOut) :
    emitTypeDecl ind sb (.arrayType (some t) (some c)) =
      .ok (sb ++ "array<" ++ tOut ++ ", " ++ cOut ++ ">") :=
  emitArrayType_ok ind sb t c tOut cOut ht hc

/-- Witness for C6 at a concrete input: `array<float, 4>`. -/
theorem arrayType_exact_concatenation_witness :
    emitTypeDecl 0 ""
        (.arrayType (some (.namedType "f32")) (some (.int32Literal 4))) =
      .ok ("" ++ "array<" ++ "float" ++ ", " ++ "4" ++ ">") :=
  arrayType_exact_concatenation 0 "" (.namedType "f32") (.int32Literal 4)
    "float" "4" (by simp [emitTypeDecl, String.empty_append])
    (by simp [emitExpression, String.empty_append]; decide)

/-- C7: an `ArrayType` with a present element type but an absent count
hits the fatal assertion path and emits nothing; with both components
present the fatal branch is not taken — the node emits successfully
whenever its components do. -/
theorem arrayType_missing_count_fatal (ind : Nat) (sb : String)
    (t : TypeDecl) :
    emitTypeDecl ind sb (.arrayType (some t) none) = .error () ∧
    (∀ (c : Expression) (tOut cOut : String),
      emitTypeDecl ind "" t = .ok tOut →
      emitExpression ind "" c = .ok cOut →
      emitTypeDecl ind sb (.arrayType (some t) (some c)) =
        .ok (sb ++ "array<" ++ tOut ++ ", " ++ cOut ++ ">")) := by
  refine ⟨by simp [emitTypeDecl], ?_⟩
  intro c tOut cOut ht hc
  exact emitArrayType_ok ind sb t c tOut cOut ht hc

/-- Witness for C7 at a concrete input: a missing count is fatal, a
complete node succeeds. -/
theorem arrayType_missing_count_fatal_witness :
    emitTypeDecl 0 "" (.arrayType (some (.namedType "f32")) none) =
      .error () ∧
    emitTypeDecl 0 ""
        (.arrayType (some (.namedType "f32")) (some (.int32Literal 2))) =
      .ok ("" ++ "array<" ++ "float" ++ ", " ++ "2" ++ ">") :=
  ⟨(arrayType_missing_count_fatal 0 "" (.namedType "f32")).1,
    (arrayType_missing_count_fatal 0 "" (.namedType "f32")).2
      (.int32Literal 2) "float" "2"
      (by simp [emitTypeDecl, String.empty_append])
      (by simp [emitExpression, String.empty_append]; decide)⟩

/-- C8: attribute translation appends exactly the double-bracketed
token: stage attributes render as `[[vertex]]`, `[[fragment]]`,
`[[compute]]`; the builtin names `vertex_index` and `position` render
as `[[vertex_id]]` and `[[position]]`, any other builtin name is fatal;
a location attribute with value `N` renders as `[[attribute(N)]]`. -/
theorem attribute_rendering (sb : String) :
    emitAttribute sb (.stageAttribute .vertex) = .ok (sb ++ "[[vertex]]") ∧
    emitAttribute sb (.stageAttribute .fragment) =
      .ok (sb ++ "[[fragment]]") ∧
    emitAttribute sb (.stageAttribute .compute) = .ok (sb ++ "[[compute]]") ∧
    emitAttribute sb (.builtinAttribute "vertex_index") =
      .ok (sb ++ "[[vertex_id]]") ∧
    emitAttribute sb (.builtinAttribute "position") =
      .ok (sb ++ "[[position]]") ∧
    (∀ name : String, name ≠ "vertex_index" → name ≠ "position" →
      emitAttribute sb (.builtinAttribute name) = .error ()) ∧
    (∀ loc : Nat, emitAttribute sb (.locationAttribute loc) =
      .ok (sb ++ "[[attribute(" ++ toString loc ++ ")]]")) := by
  refine ⟨by simp [emitAttribute], by simp [emitAttribute],
    by simp [emitAttribute], by simp [emitAttribute],
    by simp [emitAttribute], ?_, by simp [emitAttribute]⟩
  intro name h1 h2
  simp [emitAttribute, h1, h2]

/-- Witness for C8 at a concrete input: an unknown builtin name is
fatal. -/
theorem attribute_rendering_witness :
    emitAttribute "" (.builtinAttribute "frag_depth") = .error () :=
  (attribute_rendering "").2.2.2.2.2.1 "frag_depth" (by decide) (by decide)

/-- C9: code generation is deterministic and idempotent: re-running
`emitMetalFunctions` on the same module over the buffer produced by a
first run appends the byte-identical text again and returns the equal
metadata record. -/
theorem emitMetalFunctions_idempotent (m : ShaderModule) (sb out : String)
    (ep : RenderMetalFunctionEntryPoints)
    (h : emitMetalFunctions sb m = .ok (sb ++ out, ep)) :
    emitMetalFunctions (sb ++ out) m = .ok (sb ++ out ++ out, ep) := by
  rw [emitMetalFunctions_localize] at h ⊢
  cases hx : emitMetalFunctions "" m with
  | error e => rw [hx] at h; simp [Except.map] at h
  | ok p =>
      rw [hx] at h
      obtain ⟨o, ep0⟩ := p
      simp only [Except.map, Except.ok.injEq, Prod.mk.injEq] at h ⊢
      obtain ⟨h1, h2⟩ := h
      have ho : o = out := append_left_cancel_str sb h1
      exact ⟨by rw [ho], h2⟩

/-- Witness for C9 at a concrete input: re-emitting `vertexOnlyModule`
over its own output doubles the text. -/
theorem emitMetalFunctions_idempotent_witness :
    emitMetalFunctions ("" ++ "[[vertex]] int main()\n\x7b\n\x7d\n\n")
        vertexOnlyModule =
      .ok ("" ++ "[[vertex]] int main()\n\x7b\n\x7d\n\n" ++
          "[[vertex]] int main()\n\x7b\n\x7d\n\n",
        { vertexEntryPointName := "", fragmentEntryPointName := "" }) :=
  emitMetalFunctions_idempotent vertexOnlyModule ""
    "[[vertex]] int main()\n\x7b\n\x7d\n\n" ⟨"", ""⟩
    (by simp [vertexOnlyModule, emitMetalFunctions, emitShaderModule,
      emitStructDecls, emitFunctionDecls, emitFunctionDecl,
      emitFunctionAttributes, emitAttribute, emitTypeDecl, emitParameters,
      emitStatement, emitStatementDispatch, emitStatementList,
      Statement.isCompound, indentString])

/-- C10: every visit of the writer is append-only: whenever a visit
succeeds, the resulting buffer is the starting buffer followed by some
suffix — no emission rewrites or removes previously emitted text. -/
theorem visit_append_only (ind : Nat) (sb : String) :
    (∀ (t : TypeDecl) (r : String),
      emitTypeDecl ind sb t = .ok r → ∃ out, r = sb ++ out) ∧
    (∀ (e : Expression) (r : String),
      emitExpression ind sb e = .ok r → ∃ out, r = sb ++ out) ∧
    (∀ (s : Statement) (r : String),
      emitStatement ind sb s = .ok r → ∃ out, r = sb ++ out) ∧
    (∀ (a : Attribute) (r : String),
      emitAttribute sb a = .ok r → ∃ out, r = sb ++ out) ∧
    (∀ (p : Parameter) (r : String),
      emitParameter ind sb p = .ok r → ∃ out, r = sb ++ out) ∧
    (∀ (v : VariableDecl) (r : String),
      emitVariableDecl ind sb v = .ok r → ∃ out, r = sb ++ out) ∧
    (∀ (f : FunctionDecl) (r : String),
      emitFunctionDecl ind sb f = .ok r → ∃ out, r = sb ++ out) ∧
    (∀ (sd : StructDecl) (r : String),
      emitStructDecl ind sb sd = .ok r → ∃ out, r = sb ++ out) ∧
    (∀ (m : ShaderModule) (r : String),
      emitShaderModule ind sb m = .ok r → ∃ out, r = sb ++ out) := by
  refine ⟨fun t r h => ?_, fun e r h => ?_, fun s r h => ?_,
    fun a r h => ?_, fun p r h => ?_, fun v r h => ?_, fun f r h => ?_,
    fun sd r h => ?_, fun m r h => ?_⟩
  · rw [emitTypeDecl_localize] at h
    cases hx : emitTypeDecl ind "" t with
    | error e => rw [hx] at h; simp [Except.map] at h
    | ok o =>
        rw [hx] at h; simp only [Except.map, Except.ok.injEq] at h
        exact ⟨o, h.symm⟩
  · rw [emitExpression_localize] at h
    cases hx : emitExpression ind "" e with
    | error e => rw [hx] at h; simp [Except.map] at h
    | ok o =>
        rw [hx] at h; simp only [Except.map, Except.ok.injEq] at h
        exact ⟨o, h.symm⟩
  · rw [emitStatement_localize] at h
    cases hx : emitStatement ind "" s with
    | error e => rw [hx] at h; simp [Except.map] at h
    | ok o =>
        rw [hx] at h; simp only [Except.map, Except.ok.injEq] at h
        exact ⟨o, h.symm⟩
  · rw [emitAttribute_localize] at h
    cases hx : emitAttribute "" a with
    | error e => rw [hx] at h; simp [Except.map] at h
    | ok o =>
        rw [hx] at h; simp only [Except.map, Except.ok.injEq] at h
        exact ⟨o, h.symm⟩
  · rw [emitParameter_localize] at h
    cases hx : emitParameter ind "" p with
    | error e => rw [hx] at h; simp [Except.map] at h
    | ok o =>
        rw [hx] at h; simp only [Except.map, Except.ok.injEq] at h
        exact ⟨o, h.symm⟩
  · rw [emitVariableDecl_localize] at h
    cases hx : emitVariableDecl ind "" v with
    | error e => rw [hx] at h; simp [Except.map] at h
    | ok o =>
        rw [hx] at h; simp only [Except.map, Except.ok.injEq] at h
        exact ⟨o, h.symm⟩
  · rw [emitFunctionDecl_localize] at h
    cases hx : emitFunctionDecl ind "" f with
    | error e => rw [hx] at h; simp [Except.map] at h
    | ok o =>
        rw [hx] at h; simp only [Except.map, Except.ok.injEq] at h
        exact ⟨o, h.symm⟩
  · rw [emitStructDecl_localize] at h
    cases hx : emitStructDecl ind "" sd with
    | error e => rw [hx] at h; simp [Except.map] at h
    | ok o =>
        rw [hx] at h; simp only [Except.map, Except.ok.injEq] at h
        exact ⟨o, h.symm⟩
  · rw [emitShaderModule_localize] at h
    cases hx : emitShaderModule ind "" m with
    | error e => rw [hx] at h; simp [Except.map] at h
    | ok o =>
        rw [hx] at h; simp only [Except.map, Except.ok.injEq] at h
        exact ⟨o, h.symm⟩

/-- Witness for C10 at a concrete input: emitting a named type over a
non-empty buffer only appends. -/
theorem visit_append_only_witness :
    ∃ out, "x" ++ "int" = "x" ++ out :=
  (visit_append_only 0 "x").1 (.namedType "i32") ("x" ++ "int")
    (by simp [emitTypeDecl])

end Metal

end WGSL
